import Mathlib

/-!
Verification of the slog-to-iris provider (package slogprovider).

The provider is a bounded hand-off queue backed by a buffered Go channel
(`records`), a close-signal channel (`closed`) and a `sync.Once`, plus a pure
record-conversion layer (`convertSlogRecord`, `convertLevel`,
`convertAttribute`).  We embed the queue as an explicit state and the two
`select` statements of `Handle` and `Read` as step relations: Go's `select`
chooses nondeterministically among the ready cases, and runs `default` only
when no other case is ready, so a step relation (one rule per case, guarded by
that case's readiness) is the faithful shallow embedding.
-/

namespace SlogProvider

/-- A slog attribute value, indexed by its `slog.Kind` type tag.  The payloads
the conversion merely passes through (float bits, time instants) are carried
opaquely; `other` carries the `String()` rendering the source's default branch
uses for every unrecognized kind. -/
inductive SlogValue where
  | string (s : String)
  | int64 (i : Int)
  | uint64 (u : Nat)
  | float64 (bits : Nat)
  | bool (b : Bool)
  | duration (d : Int)
  | time (t : Nat)
  | other (rendered : String)
deriving DecidableEq

/-- A slog attribute: key plus typed value (slog.Attr). -/
structure Attr where
  key : String
  value : SlogValue
deriving DecidableEq

/-- A slog record: message, level and ordered attributes (slog.Record).
`slog.Level` is an integer type, embedded as `Int`. -/
structure SlogRecord where
  message : String
  level : Int
  attrs : List Attr
deriving DecidableEq

/-- slog.LevelDebug = -4. -/
def slogLevelDebug : Int := -4

/-- slog.LevelInfo = 0. -/
def slogLevelInfo : Int := 0

/-- slog.LevelWarn = 4. -/
def slogLevelWarn : Int := 4

/-- The four iris levels the provider targets. -/
inductive IrisLevel where
  | debug
  | info
  | warn
  | error
deriving DecidableEq

/-- Numeric severity of an iris level, with Debug < Info < Warn < Error. -/
def IrisLevel.toNat : IrisLevel → Nat
  | .debug => 0
  | .info => 1
  | .warn => 2
  | .error => 3

/-- An iris field, one constructor per typed constructor the source calls
(iris.String, iris.Int64, iris.Uint64, iris.Float64, iris.Bool, iris.Dur,
iris.Time). -/
inductive Field where
  | string (key : String) (v : String)
  | int64 (key : String) (v : Int)
  | uint64 (key : String) (v : Nat)
  | float64 (key : String) (bits : Nat)
  | bool (key : String) (v : Bool)
  | dur (key : String) (d : Int)
  | time (key : String) (t : Nat)
deriving DecidableEq

/-- An iris record: level, message and accumulated fields (iris.Record). -/
structure IrisRecord where
  level : IrisLevel
  msg : String
  fields : List Field
deriving DecidableEq

/-- Modelled from the spec: the field limit of the external iris collaborator.
The repository's doc comment on `convertSlogRecord` states that iris records
hold at most 32 fields and excess fields are silently dropped. -/
def irisFieldLimit : Nat := 32

/-- iris.NewRecord: a fresh record with no fields. -/
def NewRecord (level : IrisLevel) (msg : String) : IrisRecord :=
  ⟨level, msg, []⟩

/-- Modelled from the spec: `AddField` of the external iris collaborator.  Per
the repository's doc comment, a record holds at most `irisFieldLimit` fields
and excess fields are silently dropped; the returned flag reports whether the
field was added, and `slog.Record.Attrs` stops iterating once the callback
returns false. -/
def IrisRecord.addField (rec : IrisRecord) (f : Field) : IrisRecord × Bool :=
  if rec.fields.length < irisFieldLimit then
    ({ rec with fields := rec.fields ++ [f] }, true)
  else
    (rec, false)

/-- Provider.convertLevel: ordered threshold comparison on the slog level. -/
def convertLevel (slogLevel : Int) : IrisLevel :=
  if slogLevel ≤ slogLevelDebug then .debug
  else if slogLevel ≤ slogLevelInfo then .info
  else if slogLevel ≤ slogLevelWarn then .warn
  else .error

/-- Provider.convertAttribute: dispatch on the value's kind; every
unrecognized kind falls back to iris.String of the value's rendering. -/
def convertAttribute (attr : Attr) : Field :=
  match attr.value with
  | .string s => .string attr.key s
  | .int64 i => .int64 attr.key i
  | .uint64 u => .uint64 attr.key u
  | .float64 bits => .float64 attr.key bits
  | .bool b => .bool attr.key b
  | .duration d => .dur attr.key d
  | .time t => .time attr.key t
  | .other rendered => .string attr.key rendered

/-- The `slogRec.Attrs` loop of Provider.convertSlogRecord: convert each
attribute in order, add it with `AddField`, stop as soon as `AddField`
returns false. -/
def attrsFold (rec : IrisRecord) : List Attr → IrisRecord
  | [] => rec
  | a :: rest =>
    match rec.addField (convertAttribute a) with
    | (rec2, true) => attrsFold rec2 rest
    | (rec2, false) => rec2

/-- Provider.convertSlogRecord: new iris record from converted level and
message, then the attribute loop. -/
def convertSlogRecord (slogRec : SlogRecord) : IrisRecord :=
  attrsFold (NewRecord (convertLevel slogRec.level) slogRec.message) slogRec.attrs

/-- Spec-side definition, following the spec's words for comparison with the
source: level buckets "debug ≤ X < info ≤ Y < warn ≤ Z < error". -/
def specLevelBucket (l : Int) : IrisLevel :=
  if l ≤ -4 then .debug
  else if l ≤ 0 then .info
  else if l ≤ 4 then .warn
  else .error

/-- Spec-side definition, following the spec's words for comparison with the
source: the type-tag dispatch table (string, integer, unsigned integer, float,
boolean, duration, timestamp; unrecognized types fall back to a string
rendering). -/
def specDispatch (attr : Attr) : Field :=
  match attr.value with
  | .string s => .string attr.key s
  | .int64 i => .int64 attr.key i
  | .uint64 u => .uint64 attr.key u
  | .float64 bits => .float64 attr.key bits
  | .bool b => .bool attr.key b
  | .duration d => .dur attr.key d
  | .time t => .time attr.key t
  | .other rendered => .string attr.key rendered

/-- The provider's queue state: the contents of the buffered channel
`records` (head = front of the FIFO), its capacity (the `bufferSize` given to
`New`), and whether the `closed` channel has been closed. -/
structure ProviderState where
  capacity : Nat
  buffer : List SlogRecord
  closed : Bool
deriving DecidableEq

/-- `New bufferSize`: empty buffer, open. -/
def NewProvider (bufferSize : Nat) : ProviderState :=
  ⟨bufferSize, [], false⟩

/-- Provider.Close: `once.Do(close(p.closed))` — sets the closed flag.  The
`sync.Once` only guards the channel-close from panicking on a second call;
the observable state change is setting the flag. -/
def Close (s : ProviderState) : ProviderState :=
  { s with closed := true }

/-- Outcome of one Provider.Handle call, one constructor per `select` case:
`accepted` (the send case stored the record, returns nil), `closed` (the
closed-channel case, returns an error), `dropped` (the `default` case,
returns nil). -/
inductive HandleResult where
  | accepted
  | closed
  | dropped
deriving DecidableEq

/-- The Go `error` value Handle returns for each outcome: nil for both
`accepted` and `dropped`, the "slog provider closed" error for `closed`. -/
def handleReturn : HandleResult → Option String
  | .accepted => none
  | .dropped => none
  | .closed => some "slog provider closed"

/-- One Provider.Handle call as the source's `select`: the send case is ready
when the buffered channel has space; the closed-receive case is ready when
the provider is closed; `default` runs only when neither is ready.  When
several cases are ready Go chooses among them nondeterministically, so the
relation admits every ready case. -/
inductive HandleStep : ProviderState → SlogRecord → HandleResult → ProviderState → Prop where
  | send {s : ProviderState} {r : SlogRecord} (h : s.buffer.length < s.capacity) :
      HandleStep s r HandleResult.accepted { s with buffer := s.buffer ++ [r] }
  | closedCase {s : ProviderState} {r : SlogRecord} (h : s.closed = true) :
      HandleStep s r HandleResult.closed s
  | dropDefault {s : ProviderState} {r : SlogRecord}
      (hfull : ¬ s.buffer.length < s.capacity) (hopen : s.closed = false) :
      HandleStep s r HandleResult.dropped s

/-- A Go context as Read sees it: whether `ctx.Done()` has fired, and the
value of `ctx.Err()` once it has (always a non-nil error in Go). -/
structure Ctx where
  done : Bool
  err : String
deriving DecidableEq

/-- Which `select` case a Read call returned through. -/
inductive ReadBranch where
  | recv
  | ctxDone
  | closedChan
deriving DecidableEq

/-- One Provider.Read call as the source's `select`: receive from `records`
is ready when the buffer is non-empty (returns the converted head record and
nil error); the context case is ready when the context has fired (returns
nil record and `ctx.Err()`); the closed case is ready when the provider is
closed (returns nil, nil).  No `default`: when no case is ready the call
blocks, so no step exists.  When several cases are ready Go chooses among
them nondeterministically. -/
inductive ReadStep : ProviderState → Ctx → ReadBranch → Option IrisRecord × Option String → ProviderState → Prop where
  | recv {s : ProviderState} {c : Ctx} {r : SlogRecord} {rest : List SlogRecord}
      (h : s.buffer = r :: rest) :
      ReadStep s c ReadBranch.recv (some (convertSlogRecord r), none) { s with buffer := rest }
  | ctxDone {s : ProviderState} {c : Ctx} (h : c.done = true) :
      ReadStep s c ReadBranch.ctxDone (none, some c.err) s
  | closedChan {s : ProviderState} {c : Ctx} (h : s.closed = true) :
      ReadStep s c ReadBranch.closedChan (none, none) s

/-- A sequence of Handle calls: records presented in order, outcomes and
final state. -/
inductive HandleTrace : ProviderState → List SlogRecord → List HandleResult → ProviderState → Prop where
  | nil {s : ProviderState} : HandleTrace s [] [] s
  | cons {s s' s'' : ProviderState} {r : SlogRecord} {rs : List SlogRecord}
      {res : HandleResult} {ress : List HandleResult}
      (hstep : HandleStep s r res s') (htail : HandleTrace s' rs ress s'') :
      HandleTrace s (r :: rs) (res :: ress) s''

/-- A sequence of Read calls under one context: outcomes in order and final
state. -/
inductive ReadTrace : ProviderState → Ctx → List (Option IrisRecord × Option String) → ProviderState → Prop where
  | nil {s : ProviderState} {c : Ctx} : ReadTrace s c [] s
  | cons {s s' s'' : ProviderState} {c : Ctx} {b : ReadBranch}
      {o : Option IrisRecord × Option String} {os : List (Option IrisRecord × Option String)}
      (hstep : ReadStep s c b o s') (htail : ReadTrace s' c os s'') :
      ReadTrace s c (o :: os) s''

/-- Concrete sample records for witnesses. -/
def recA : SlogRecord := ⟨"A", 0, []⟩

def recB : SlogRecord := ⟨"B", 0, []⟩

def recC : SlogRecord := ⟨"C", 0, []⟩

def recD : SlogRecord := ⟨"D", 0, []⟩

/-- A context that has not fired. -/
def liveCtx : Ctx := ⟨false, ""⟩

/-- A context that has already fired, carrying Go's canceled-context error. -/
def doneCtx : Ctx := ⟨true, "context canceled"⟩

/-- Handle steps never change the closed flag or the capacity. -/
theorem handleStep_preserves_closed {s : ProviderState} {r : SlogRecord} {res : HandleResult}
    {s' : ProviderState} (h : HandleStep s r res s') :
    s'.closed = s.closed ∧ s'.capacity = s.capacity := by
  cases h <;> exact ⟨rfl, rfl⟩

/-- Read steps never change the closed flag or the capacity. -/
theorem readStep_preserves_closed {s : ProviderState} {c : Ctx} {b : ReadBranch}
    {o : Option IrisRecord × Option String} {s' : ProviderState}
    (h : ReadStep s c b o s') :
    s'.closed = s.closed ∧ s'.capacity = s.capacity := by
  cases h <;> exact ⟨rfl, rfl⟩

/-- While the provider is open and the buffer has space, Handle is
deterministic: only the send case is ready. -/
theorem handleStep_open_space {s : ProviderState} {r : SlogRecord} {res : HandleResult}
    {s' : ProviderState} (hopen : s.closed = false) (hspace : s.buffer.length < s.capacity)
    (h : HandleStep s r res s') :
    res = HandleResult.accepted ∧ s' = { s with buffer := s.buffer ++ [r] } := by
  cases h with
  | send _ => exact ⟨rfl, rfl⟩
  | closedCase hc => rw [hopen] at hc; cases hc
  | dropDefault hfull _ => exact absurd hspace hfull

/-- While the provider is open, the context is live and the buffer is
non-empty, Read is deterministic: only the receive case is ready. -/
theorem readStep_open_live {s : ProviderState} {c : Ctx} {b : ReadBranch}
    {o : Option IrisRecord × Option String} {s' : ProviderState}
    {r : SlogRecord} {rest : List SlogRecord}
    (hopen : s.closed = false) (hlive : c.done = false) (hbuf : s.buffer = r :: rest)
    (h : ReadStep s c b o s') :
    b = ReadBranch.recv ∧ o = (some (convertSlogRecord r), none) ∧
      s' = { s with buffer := rest } := by
  cases h with
  | recv hb =>
    rw [hbuf] at hb
    cases hb
    exact ⟨rfl, rfl, rfl⟩
  | ctxDone hd => rw [hlive] at hd; cases hd
  | closedChan hc => rw [hopen] at hc; cases hc

/-- An open-state Handle trace within remaining capacity accepts every record
and appends them in order. -/
theorem handleTrace_open_within {s : ProviderState} {l : List SlogRecord}
    {ress : List HandleResult} {s' : ProviderState}
    (ht : HandleTrace s l ress s') (hopen : s.closed = false)
    (hcap : s.buffer.length + l.length ≤ s.capacity) :
    (∀ x ∈ ress, x = HandleResult.accepted) ∧
      s' = { s with buffer := s.buffer ++ l } := by
  induction ht with
  | nil =>
    refine ⟨?_, by simp⟩
    intro x hx
    cases hx
  | cons hstep htail ih =>
    rename_i s₀ s₁ s₂ r rs res ress₀
    have hspace : s₀.buffer.length < s₀.capacity := by
      simp only [List.length_cons] at hcap
      omega
    obtain ⟨hres, hs₁⟩ := handleStep_open_space hopen hspace hstep
    subst hres
    subst hs₁
    have hopen' : (⟨s₀.capacity, s₀.buffer ++ [r], s₀.closed⟩ : ProviderState).closed = false := hopen
    have hcap' : (s₀.buffer ++ [r]).length + rs.length ≤ s₀.capacity := by
      simp only [List.length_append, List.length_singleton]
      simp only [List.length_cons] at hcap
      omega
    obtain ⟨hall, hfin⟩ := ih hopen' hcap'
    refine ⟨?_, ?_⟩
    · intro x hx
      rcases List.mem_cons.mp hx with h | h
      · exact h
      · exact hall x h
    · rw [hfin]
      simp [List.append_assoc]

/-- An open-state Read trace with a live context that takes as many steps as
there are buffered records returns exactly those records, converted, in FIFO
order, and empties the buffer. -/
theorem readTrace_open_live {s : ProviderState} {c : Ctx}
    {os : List (Option IrisRecord × Option String)} {s' : ProviderState}
    (hrt : ReadTrace s c os s') (hopen : s.closed = false) (hlive : c.done = false)
    (hlen : os.length = s.buffer.length) :
    os = s.buffer.map (fun r => (some (convertSlogRecord r), none)) ∧
      s'.buffer = [] := by
  induction hrt with
  | nil =>
    rename_i s₀ c₀
    have : s₀.buffer = [] := by
      cases h : s₀.buffer with
      | nil => rfl
      | cons r rest => rw [h] at hlen; simp at hlen
    simp [this]
  | cons hstep htail ih =>
    rename_i s₀ s₁ s₂ c₀ b o os₀
    cases hbuf : s₀.buffer with
    | nil => rw [hbuf] at hlen; simp at hlen
    | cons r rest =>
      obtain ⟨hb, ho, hs₁⟩ := readStep_open_live hopen hlive hbuf hstep
      subst hs₁
      have hopen' : (⟨s₀.capacity, rest, s₀.closed⟩ : ProviderState).closed = false := hopen
      have hlen' : os₀.length = rest.length := by
        rw [hbuf] at hlen
        simpa using hlen
      obtain ⟨hos, hfin⟩ := ih hopen' hlive hlen'
      subst ho
      exact ⟨by rw [hos]; rfl, hfin⟩

/-- The source's threshold chain agrees with the spec's four buckets. -/
theorem specLevelBucket_eq (l : Int) : convertLevel l = specLevelBucket l := by
  simp [convertLevel, specLevelBucket, slogLevelDebug, slogLevelInfo, slogLevelWarn]

/-- The source's kind dispatch agrees with the spec's dispatch table. -/
theorem specDispatch_eq : convertAttribute = specDispatch := by
  funext a
  cases a with
  | mk key value => cases value <;> rfl

/-- Unfolding one step of the attribute loop. -/
theorem attrsFold_cons (rec : IrisRecord) (a : Attr) (rest : List Attr) :
    attrsFold rec (a :: rest) =
      if rec.fields.length < irisFieldLimit then
        attrsFold { rec with fields := rec.fields ++ [convertAttribute a] } rest
      else rec := by
  by_cases h : rec.fields.length < irisFieldLimit <;>
    simp [attrsFold, IrisRecord.addField, h]

/-- The attribute loop appends the converted attributes, truncated to the
space left under the field limit, and touches nothing else. -/
theorem attrsFold_spec (l : List Attr) (rec : IrisRecord) :
    attrsFold rec l =
      { rec with fields :=
          rec.fields ++ (l.map convertAttribute).take (irisFieldLimit - rec.fields.length) } := by
  induction l generalizing rec with
  | nil => simp [attrsFold]
  | cons a rest ih =>
    rw [attrsFold_cons]
    by_cases h : rec.fields.length < irisFieldLimit
    · rw [if_pos h, ih]
      have hlen : (rec.fields ++ [convertAttribute a]).length = rec.fields.length + 1 := by
        simp
      have hsucc : irisFieldLimit - rec.fields.length =
          (irisFieldLimit - (rec.fields.length + 1)) + 1 := by omega
      simp only [List.map_cons, hlen, hsucc, List.take_succ_cons, List.append_assoc,
        List.singleton_append]
    · rw [if_neg h]
      have hz : irisFieldLimit - rec.fields.length = 0 := by omega
      simp [hz]

/-- C1: the claim fails on the code, as the code itself shows at the failing
input.  With a closed provider whose buffer still holds a record and a live
context, the Read `select` has both the receive case and the closed case
ready, and Go may choose either; in particular the step that reports Closed
(returning nil, nil) is permitted while a buffered record remains, so Read
does not guarantee draining before reporting Closed. -/
theorem read_can_report_closed_while_buffered :
    ReadStep ⟨5, [recA], true⟩ liveCtx ReadBranch.closedChan (none, none) ⟨5, [recA], true⟩ ∧
    (⟨5, [recA], true⟩ : ProviderState).buffer.length = 1 ∧
    (⟨5, [recA], true⟩ : ProviderState).closed = true :=
  ⟨ReadStep.closedChan rfl, rfl, rfl⟩

/-- C2: the claim fails on the code, as the code itself shows at the failing
input.  With a closed provider that still has buffer capacity, the Handle
`select` has both the send case and the closed case ready, and Go may choose
either; in particular the step that stores the record and returns nil
(Accepted) is permitted after Close. -/
theorem handle_can_accept_after_close :
    HandleStep ⟨5, [], true⟩ recA HandleResult.accepted ⟨5, [recA], true⟩ ∧
    (⟨5, [], true⟩ : ProviderState).closed = true ∧
    handleReturn HandleResult.accepted = none :=
  ⟨HandleStep.send (by decide), rfl, rfl⟩

/-- C3 counterexample: Accepted and Dropped are not distinguishable from the
returned value.  At concrete inputs an accepting call (open, empty,
capacity 1) and a dropping call (open, full, capacity 1) are both real steps
of the code, their Go return values are both nil, yet the outcomes differ. -/
theorem handle_accepted_dropped_same_return :
    HandleStep ⟨1, [], false⟩ recA HandleResult.accepted ⟨1, [recA], false⟩ ∧
    HandleStep ⟨1, [recA], false⟩ recB HandleResult.dropped ⟨1, [recA], false⟩ ∧
    handleReturn HandleResult.accepted = handleReturn HandleResult.dropped ∧
    decide (HandleResult.accepted = HandleResult.dropped) = false :=
  ⟨HandleStep.send (by decide), HandleStep.dropDefault (by decide) rfl, rfl, rfl⟩

/-- C3 amended: Handle never raises — every call, from every state, returns
immediately with one of the three outcomes Accepted, Dropped or Closed as an
ordinary value; Closed is distinguishable by its non-nil error return, but
Accepted and Dropped both return nil and are not distinguishable by the
caller. -/
theorem handle_total_three_valued :
    (∀ (s : ProviderState) (r : SlogRecord), ∃ res s', HandleStep s r res s') ∧
    handleReturn HandleResult.closed = some "slog provider closed" ∧
    handleReturn HandleResult.accepted = none ∧
    handleReturn HandleResult.dropped = none := by
  refine ⟨?_, rfl, rfl, rfl⟩
  intro s r
  cases hc : s.closed with
  | true => exact ⟨HandleResult.closed, s, HandleStep.closedCase hc⟩
  | false =>
    by_cases hs : s.buffer.length < s.capacity
    · exact ⟨HandleResult.accepted, _, HandleStep.send hs⟩
    · exact ⟨HandleResult.dropped, s, HandleStep.dropDefault hs hc⟩

/-- C4: from a fresh provider, any sequence of Handle calls within capacity
is all-Accepted, and reading back as many records with a live context on the
open provider yields exactly those records, converted, in FIFO order, each
exactly once, leaving the buffer empty. -/
theorem fifo_enqueue_dequeue {cap : Nat} {l : List SlogRecord} {ress : List HandleResult}
    {s₁ : ProviderState} {c : Ctx} {os : List (Option IrisRecord × Option String)}
    {s₂ : ProviderState}
    (hcap : l.length ≤ cap)
    (hht : HandleTrace (NewProvider cap) l ress s₁)
    (hlive : c.done = false)
    (hlen : os.length = l.length)
    (hrt : ReadTrace s₁ c os s₂) :
    (∀ x ∈ ress, x = HandleResult.accepted) ∧
    os = l.map (fun r => (some (convertSlogRecord r), none)) ∧
    s₂.buffer = [] := by
  obtain ⟨hall, hs₁⟩ := handleTrace_open_within hht rfl (by simpa [NewProvider] using hcap)
  subst hs₁
  obtain ⟨hos, hemp⟩ := readTrace_open_live hrt rfl hlive (by simpa [NewProvider] using hlen)
  refine ⟨hall, ?_, hemp⟩
  rw [hos]
  simp [NewProvider]

/-- C4 witness: capacity 2, records A then B: both accepted, read back as
A then B, buffer empty. -/
theorem fifo_enqueue_dequeue_witness :
    (∀ x ∈ ([HandleResult.accepted, HandleResult.accepted] : List HandleResult),
      x = HandleResult.accepted) ∧
    ([(some (convertSlogRecord recA), none), (some (convertSlogRecord recB), none)] :
        List (Option IrisRecord × Option String)) =
      [recA, recB].map (fun r => (some (convertSlogRecord r), none)) ∧
    (⟨2, [], false⟩ : ProviderState).buffer = [] :=
  @fifo_enqueue_dequeue 2 [recA, recB] [HandleResult.accepted, HandleResult.accepted]
    ⟨2, [recA, recB], false⟩ liveCtx
    [(some (convertSlogRecord recA), none), (some (convertSlogRecord recB), none)]
    ⟨2, [], false⟩ (by decide)
    (HandleTrace.cons (HandleStep.send (by decide))
      (HandleTrace.cons (HandleStep.send (by decide)) HandleTrace.nil))
    rfl rfl
    (ReadTrace.cons (ReadStep.recv rfl) (ReadTrace.cons (ReadStep.recv rfl) ReadTrace.nil))

/-- C5: while the provider is open with a full buffer, Handle has exactly one
possible step — the `default` case: the record is discarded, the outcome is
Dropped, the state (hence the buffered records) is unchanged, and the Go
return value is nil, not an error.  Existence of the step means the call
returns without blocking. -/
theorem handle_full_drops {s : ProviderState} {r : SlogRecord} {res : HandleResult}
    {s' : ProviderState} (hopen : s.closed = false) (hfull : s.buffer.length = s.capacity) :
    (HandleStep s r res s' ↔ res = HandleResult.dropped ∧ s' = s) ∧
    handleReturn HandleResult.dropped = none := by
  refine ⟨⟨?_, ?_⟩, rfl⟩
  · intro h
    cases h with
    | send hs => exact absurd hs (by omega)
    | closedCase hc => rw [hopen] at hc; cases hc
    | dropDefault _ _ => exact ⟨rfl, rfl⟩
  · rintro ⟨h1, h2⟩
    subst h1
    subst h2
    exact HandleStep.dropDefault (by omega) hopen

/-- C5 witness: the claim's scenario at capacity 2 — Enqueue(A) Accepted,
Enqueue(B) Accepted, Enqueue(C) Dropped with the buffer unchanged, Dequeue
A, Enqueue(D) Accepted, Dequeue B, Dequeue D. -/
theorem handle_full_drops_witness :
    HandleStep ⟨2, [], false⟩ recA HandleResult.accepted ⟨2, [recA], false⟩ ∧
    HandleStep ⟨2, [recA], false⟩ recB HandleResult.accepted ⟨2, [recA, recB], false⟩ ∧
    HandleStep ⟨2, [recA, recB], false⟩ recC HandleResult.dropped ⟨2, [recA, recB], false⟩ ∧
    ReadStep ⟨2, [recA, recB], false⟩ liveCtx ReadBranch.recv
      (some (convertSlogRecord recA), none) ⟨2, [recB], false⟩ ∧
    HandleStep ⟨2, [recB], false⟩ recD HandleResult.accepted ⟨2, [recB, recD], false⟩ ∧
    ReadStep ⟨2, [recB, recD], false⟩ liveCtx ReadBranch.recv
      (some (convertSlogRecord recB), none) ⟨2, [recD], false⟩ ∧
    ReadStep ⟨2, [recD], false⟩ liveCtx ReadBranch.recv
      (some (convertSlogRecord recD), none) ⟨2, [], false⟩ :=
  ⟨HandleStep.send (by decide),
   HandleStep.send (by decide),
   ((handle_full_drops rfl rfl).1).mpr ⟨rfl, rfl⟩,
   ReadStep.recv rfl,
   HandleStep.send (by decide),
   ReadStep.recv rfl,
   ReadStep.recv rfl⟩

/-- C6: Close is idempotent — a second Close is a no-op on the state, and
Close only sets the closed flag, leaving buffer and capacity untouched; the
closed flag is never unset by any Handle or Read step, so the open-to-closed
transition happens exactly once. -/
theorem close_idempotent_one_shot :
    (∀ s : ProviderState, Close (Close s) = Close s) ∧
    (∀ s : ProviderState,
      (Close s).closed = true ∧ (Close s).buffer = s.buffer ∧ (Close s).capacity = s.capacity) ∧
    (∀ (s : ProviderState) (r : SlogRecord) (res : HandleResult) (s' : ProviderState),
      HandleStep s r res s' → s'.closed = s.closed) ∧
    (∀ (s : ProviderState) (c : Ctx) (b : ReadBranch)
      (o : Option IrisRecord × Option String) (s' : ProviderState),
      ReadStep s c b o s' → s'.closed = s.closed) := by
  refine ⟨fun s => rfl, fun s => ⟨rfl, rfl, rfl⟩, ?_, ?_⟩
  · intro s r res s' h
    exact (handleStep_preserves_closed h).1
  · intro s c b o s' h
    exact (readStep_preserves_closed h).1

/-- C6 witness: idempotence and the one-shot flag evaluated on a concrete
provider, and flag preservation across a concrete Handle step. -/
theorem close_idempotent_one_shot_witness :
    Close (Close (NewProvider 2)) = Close (NewProvider 2) ∧
    (Close (NewProvider 2)).closed = true ∧
    (⟨2, [], true⟩ : ProviderState).closed = (⟨2, [], true⟩ : ProviderState).closed :=
  ⟨close_idempotent_one_shot.1 (NewProvider 2),
   (close_idempotent_one_shot.2.1 (NewProvider 2)).1,
   close_idempotent_one_shot.2.2.1 ⟨2, [], true⟩ recA HandleResult.closed ⟨2, [], true⟩
     (HandleStep.closedCase rfl)⟩

/-- C7: on an empty, open provider with an already-fired context, Read has
exactly one possible step — the context case: it returns a nil record
together with the context's own error, leaving the state unchanged.
Existence of the step means the call returns without blocking. -/
theorem read_expired_ctx_empty_open {s : ProviderState} {c : Ctx} {b : ReadBranch}
    {o : Option IrisRecord × Option String} {s' : ProviderState}
    (hd : c.done = true) (he : s.buffer = []) (ho : s.closed = false) :
    ReadStep s c b o s' ↔ b = ReadBranch.ctxDone ∧ o = (none, some c.err) ∧ s' = s := by
  constructor
  · intro h
    cases h with
    | recv hb => rw [he] at hb; cases hb
    | ctxDone _ => exact ⟨rfl, rfl, rfl⟩
    | closedChan hc => rw [ho] at hc; cases hc
  · rintro ⟨hb, ho2, hs⟩
    subst hb
    subst ho2
    subst hs
    exact ReadStep.ctxDone hd

/-- C7 witness: a fired context on an empty open provider of capacity 3:
the step returning the context's error exists. -/
theorem read_expired_ctx_empty_open_witness :
    ReadStep ⟨3, [], false⟩ doneCtx ReadBranch.ctxDone (none, some doneCtx.err) ⟨3, [], false⟩ :=
  (read_expired_ctx_empty_open rfl rfl rfl).mpr ⟨rfl, rfl, rfl⟩

/-- C8: record conversion is a total pure function — as a Lean definition it
produces an output for every input — whose result preserves the message,
maps the level by the spec's four ordered threshold buckets, and whose field
list is exactly the attribute list converted by the spec's type-tag dispatch
table, truncated to the initial prefix of at most the destination-side field
limit, in order. -/
theorem convertSlogRecord_total_spec (rec : SlogRecord) :
    (convertSlogRecord rec).msg = rec.message ∧
    (convertSlogRecord rec).level = specLevelBucket rec.level ∧
    (convertSlogRecord rec).fields = (rec.attrs.map specDispatch).take irisFieldLimit := by
  unfold convertSlogRecord NewRecord
  rw [attrsFold_spec]
  refine ⟨rfl, specLevelBucket_eq rec.level, ?_⟩
  rw [← specDispatch_eq]
  simp

/-- C9: level conversion is monotone with respect to the slog level order and
the iris severity order Debug < Info < Warn < Error, and every slog level
lands in one of exactly those four iris levels. -/
theorem convertLevel_monotone_four_buckets (a b : Int) (h : a ≤ b) :
    (convertLevel a).toNat ≤ (convertLevel b).toNat ∧
    (∀ l : Int, convertLevel l = IrisLevel.debug ∨ convertLevel l = IrisLevel.info ∨
      convertLevel l = IrisLevel.warn ∨ convertLevel l = IrisLevel.error) := by
  refine ⟨?_, ?_⟩
  · unfold convertLevel slogLevelDebug slogLevelInfo slogLevelWarn
    split_ifs <;> simp [IrisLevel.toNat] <;> omega
  · intro l
    unfold convertLevel
    split_ifs <;> simp

/-- C9 witness: monotone at the concrete pair (slog.LevelDebug,
slog.LevelError). -/
theorem convertLevel_monotone_four_buckets_witness :
    ((-4 : Int) ≤ 8) ∧ (convertLevel (-4)).toNat ≤ (convertLevel 8).toNat :=
  ⟨by decide, (convertLevel_monotone_four_buckets (-4) 8 (by decide)).1⟩

/-- C10: a Read step returns the nil-record, nil-error pair exactly when it
went through the closed branch: the closed branch always yields (nil, nil),
the receive branch carries a record, and the context branch carries the
context's non-nil error, so (nil, nil) is an unambiguous end-of-stream
signal. -/
theorem read_closed_branch_nil_nil {s : ProviderState} {c : Ctx} {b : ReadBranch}
    {o : Option IrisRecord × Option String} {s' : ProviderState}
    (h : ReadStep s c b o s') :
    (b = ReadBranch.closedChan → o = (none, none)) ∧
    (o = (none, none) → b = ReadBranch.closedChan) := by
  cases h <;> constructor <;> intro hx <;> simp_all

/-- C10 witness: the closed branch at a concrete closed provider yields
exactly (none, none). -/
theorem read_closed_branch_nil_nil_witness :
    (ReadBranch.closedChan = ReadBranch.closedChan →
      ((none, none) : Option IrisRecord × Option String) = (none, none)) ∧
    (((none, none) : Option IrisRecord × Option String) = (none, none) →
      ReadBranch.closedChan = ReadBranch.closedChan) :=
  read_closed_branch_nil_nil (@ReadStep.closedChan ⟨1, [], true⟩ liveCtx rfl)

end SlogProvider
